import Mathlib

/-!
Verification of the Quizem grading engine.

This file is a shallow embedding of the grading engine of the Quizem
repository: the essay grader in `essaygrader.py` (coverage analysis,
similarity estimation, deduction synthesis and reconciliation, the
`grade_essay` orchestrator) and the quiz aggregator `grade_quiz` in
`grader.py`.

Modelling conventions:
- Python `str` values are Lean `String`s restricted to the ASCII behaviour
  the code exercises (`str.lower`, `str.strip`, the regex classes
  `[a-z0-9]` and `\w`).
- Python machine floats are modelled as exact rationals (`Rat`); the only
  float operations the code performs are ratios, comparisons and
  `round` (banker's rounding), all of which are exact on the inputs of
  interest.  The one irrational quantity (a cosine similarity, whose exact
  value never influences control flow) is kept symbolic in `SimValue`.
- Network calls and the JSON parse of the model output are external
  effects; they are passed in as explicit outcome values (`EmbedResult`,
  `TryOutcome`), so each theorem quantifies over every possible behaviour
  of the external model service.
- Dynamically typed arguments are modelled by small sum types (`PyArg`,
  `ReqArg`, `Answer`) covering the shapes the call sites can produce.
-/

/-! ### Python string primitives -/

/-- The whitespace class of Python `str.strip` (ASCII part). -/
def pyIsSpace (c : Char) : Bool :=
  c = ' ' || c = '\t' || c = '\n' || c = '\r' || c = '\x0b' || c = '\x0c'

/-- Strip leading and trailing whitespace from a character list. -/
def pyStripChars (l : List Char) : List Char :=
  ((l.dropWhile pyIsSpace).reverse.dropWhile pyIsSpace).reverse

/-- Python `s.strip()`. -/
def pyStrip (s : String) : String := String.mk (pyStripChars s.data)

/-- `s.strip()` is empty, i.e. `s` is blank (all whitespace). -/
def pyStripIsEmpty (s : String) : Bool := s.data.all pyIsSpace

/-- Python `s.lower()` (ASCII part). -/
def pyLower (s : String) : String := String.mk (s.data.map Char.toLower)

/-- Character class `[a-z0-9]`: the token alphabet of
`re.split(r"[^a-z0-9]+", requirement.lower())` in `_simple_requirement_match`. -/
def isTokChar (c : Char) : Bool :=
  ('a' ≤ c && c ≤ 'z') || ('0' ≤ c && c ≤ '9')

/-- Regex word characters `\w` = `[a-zA-Z0-9_]` (ASCII), used by the
word-boundary assertions `\b`. -/
def isWordChar (c : Char) : Bool := c.isAlphanum || c = '_'

/-- Split a character list into the maximal runs of characters satisfying
`p` (the accumulator holds the current run, reversed). -/
def splitRunsAux (p : Char → Bool) : List Char → List Char → List (List Char)
  | [], acc => if acc.isEmpty then [] else [acc.reverse]
  | c :: cs, acc =>
    if p c then splitRunsAux p cs (c :: acc)
    else if acc.isEmpty then splitRunsAux p cs []
    else acc.reverse :: splitRunsAux p cs []

/-- Maximal runs of characters satisfying `p`; this is
`re.split(r"[^X]+", s)` with the empty pieces dropped (they are dropped by
the length filter in the source anyway). -/
def splitRuns (p : Char → Bool) (l : List Char) : List (List Char) :=
  splitRunsAux p l []

/-- Tokenisation of a requirement in `_simple_requirement_match`:
lowercase alphanumeric runs, tokens of length `≤ 2` discarded. -/
def reqTokens (requirement : String) : List (List Char) :=
  (splitRuns isTokChar (pyLower requirement).data).filter (fun t => 2 < t.length)

/-! ### Word-boundary matching (`re.search(rf"\b{t}\b", essay_lc)`) -/

/-- The token `t` occurs at position `i` of `es` with word boundaries on
both sides (`\b t \b`). -/
def wordMatchAt (es t : List Char) (i : Nat) : Bool :=
  decide ((es.drop i).take t.length = t)
  && (decide (i = 0) || !isWordChar (es.getD (i - 1) ' '))
  && (decide (es.length ≤ i + t.length) || !isWordChar (es.getD (i + t.length) ' '))

/-- `re.search(rf"\b{re.escape(t)}\b", es)` finds a match somewhere. -/
def hasWordMatch (es t : List Char) : Bool :=
  (List.range (es.length + 1)).any (fun i => wordMatchAt es t i)

/-! ### Evidence snippet (`re.search(rf"(.{0,40}\b{t}\b.+?\.)", essay_lc)`)

The `.` class does not match a newline; `.{0,40}` is greedy, `.+?` is
non-greedy, and `re.search` returns the leftmost match.  We model the
leftmost-start / greedy-prefix / shortest-suffix order of the backtracking
engine directly. -/

/-- No newline among the characters (the regex class `.`). -/
def noNL (l : List Char) : Bool := l.all (fun c => c ≠ '\n')

/-- Position of the `.` closing `.+?\.` when the token match ends at `k`:
the first `j ≥ k + 1` holding a literal dot with only non-newline
characters strictly between `k` and `j`. -/
def dotEnd (es : List Char) (k : Nat) : Option Nat :=
  (List.range es.length).find? (fun j =>
    decide (k + 1 ≤ j) && decide (es.getD j ' ' = '.') && noNL ((es.drop k).take (j - k)))

/-- Try to match `.{0,40}\b t \b.+?\.` with the match starting at `s`;
the prefix length is tried greedily from 40 down.  Returns the token
position and the closing-dot position on success. -/
def matchAtStart (es t : List Char) (s : Nat) : Option (Nat × Nat) :=
  (List.range 41).reverse.findSome? (fun p =>
    if decide (s + p ≤ es.length) && noNL ((es.drop s).take p)
        && wordMatchAt es t (s + p) then
      (dotEnd es (s + p + t.length)).map (fun j => (s + p, j))
    else none)

/-- Leftmost match of the evidence pattern for token `t`: the matched
substring (`m.group(0)`), if any. -/
def findSnippet (es t : List Char) : Option (List Char) :=
  (List.range (es.length + 1)).findSome? (fun s =>
    (matchAtStart es t s).map (fun pr => (es.drop s).take (pr.2 + 1 - s)))

/-- The evidence loop of `_simple_requirement_match`: the first token with
a snippet yields `"..." + snippet.strip()`; otherwise evidence stays `""`. -/
def findEvidence (es : List Char) (tokens : List (List Char)) : String :=
  match tokens.findSome? (fun t => findSnippet es t) with
  | some snip => String.mk ('.' :: '.' :: '.' :: pyStripChars snip)
  | none => ""

/-! ### CoverageAnalyzer (`_simple_requirement_match`, `_heuristic_coverage`) -/

/-- A coverage entry `{requirement, addressed, evidence}`.  The string
fields are `Option` because model-supplied coverage dictionaries may lack
them (`c.get(...)` then yields `None`); heuristically computed coverage
always populates them. -/
structure CoverageItem where
  requirement : Option String
  addressed : Bool
  evidence : Option String
deriving Repr, DecidableEq

/-- `_simple_requirement_match(essay_lc, requirement)`: lexical match of a
requirement against the lowercased essay, returning
`(addressed, evidence)`. -/
def _simple_requirement_match (essay_lc : String) (requirement : String) :
    Bool × String :=
  let tokens := reqTokens requirement
  if tokens = [] then (false, "")
  else
    let nMatches := tokens.countP (fun t => hasWordMatch essay_lc.data t)
    let addressed : Bool :=
      decide ((1 : Rat)/2 ≤ (nMatches : Rat) / ((max 1 tokens.length : Nat) : Rat))
        || decide (3 ≤ nMatches)
    let evidence := if addressed then findEvidence essay_lc.data tokens else ""
    (addressed, evidence)

/-- `_heuristic_coverage(essay, requirements)`: one coverage entry per
non-blank requirement, in order. -/
def _heuristic_coverage (essay : String) (requirements : List String) :
    List CoverageItem :=
  let essay_lc := pyLower essay
  requirements.filterMap (fun req =>
    let req_str := pyStrip req
    if req_str = "" then none
    else
      let ae := _simple_requirement_match essay_lc req_str
      some { requirement := some req_str, addressed := ae.1, evidence := some ae.2 })

/-! ### Banker's rounding and `_coverage_to_grade` -/

/-- Python `round` on an exact rational: round half to even. -/
def roundHalfEven (q : Rat) : Int :=
  let f := ⌊q⌋
  let r := q - (f : Rat)
  if r < 1/2 then f
  else if (1 : Rat)/2 < r then f + 1
  else if f % 2 = 0 then f else f + 1

/-- `_coverage_to_grade(coverage, max_points)`:
`int(round(min(max_points, max(0, ratio * max_points))))` where
`ratio = addressed / len(coverage)`, and `0` for empty coverage. -/
def _coverage_to_grade (coverage : List CoverageItem) (max_points : Int) : Int :=
  if coverage = [] then 0
  else
    let addressed := coverage.countP (fun c => c.addressed)
    roundHalfEven (min (max_points : Rat)
      (max 0 ((addressed : Rat) * (max_points : Rat) / (coverage.length : Rat))))

/-! ### Deductions (`_synthesize_deductions` and the normalisation in
`grade_essay`) -/

/-- A deduction entry `{reason, points, requirement?, evidence?, category?}`. -/
structure Deduction where
  reason : String
  points : Int
  requirement : Option String
  evidence : Option String
  category : Option String
deriving Repr, DecidableEq

/-- `_synthesize_deductions(grade=, max_points=, coverage=)`: distribute
`max(0, max_points - grade)` over the unaddressed coverage items (integer
division, remainder one point each to the first items in order), or a
single `partial_coverage` entry when every item is addressed.  Returns the
pair `(deductions, total)`. -/
def _synthesize_deductions (grade : Int) (max_points : Int)
    (coverage : List CoverageItem) : List Deduction × Int :=
  let missing_points : Int := max 0 (max_points - grade)
  if missing_points = 0 then ([], 0)
  else
    let missed := coverage.filter (fun c => !c.addressed)
    if missed.isEmpty then
      ([{ reason := "Partial coverage/quality issues (brevity, clarity, depth, or minor inaccuracies)",
          points := missing_points, requirement := none, evidence := none,
          category := some "partial_coverage" }], missing_points)
    else
      let n : Int := missed.length
      let base : Int := missing_points / n
      let remainder : Int := missing_points - base * n
      (missed.enum.map (fun ic =>
        { reason := "Missing requirement: " ++ ic.2.requirement.getD "",
          points := base + (if (ic.1 : Int) < remainder then 1 else 0),
          requirement := ic.2.requirement, evidence := ic.2.evidence,
          category := some "missing_requirement" }), missing_points)

/-! ### SimilarityEstimator (`_cosine_similarity`, `_compute_semantic_score`) -/

/-- Dot product of the two embedding vectors (`zip` truncates to the
shorter one, exactly as the Python generator over `zip(v1, v2)` does). -/
def dotp (v1 v2 : List Rat) : Rat :=
  ((v1.zip v2).map (fun ab => ab.1 * ab.2)).sum

/-- Sum of squares of a vector; the magnitude of the source is
`sqrt (sumsq v)`, and `magnitude == 0` iff `sumsq v = 0`. -/
def sumsq (v : List Rat) : Rat := (v.map (fun a => a * a)).sum

/-- The float computed by `_cosine_similarity`, kept symbolic: either an
exactly known rational (the guard paths return the literal `0.0`) or the
cosine `dotp v1 v2 / (sqrt (sumsq v1) * sqrt (sumsq v2))`, which is
irrational in general and is only ever formatted into the prompt text. -/
inductive SimValue where
  | ratVal (q : Rat)
  | cosine (v1 v2 : List Rat)
deriving Repr, DecidableEq

/-- Real value denoted by a `SimValue`. -/
noncomputable def SimValue.val : SimValue → ℝ
  | .ratVal q => (q : ℝ)
  | .cosine v1 v2 =>
    (dotp v1 v2 : ℝ) / (Real.sqrt (sumsq v1) * Real.sqrt (sumsq v2))

/-- `_cosine_similarity(v1, v2)`: `0.0` for empty or length-mismatched
vectors, `0.0` when either magnitude is zero, the true cosine otherwise. -/
def _cosine_similarity (v1 v2 : List Rat) : SimValue :=
  if v1 = [] ∨ v2 = [] ∨ v1.length ≠ v2.length then .ratVal 0
  else if sumsq v1 = 0 ∨ sumsq v2 = 0 then .ratVal 0
  else .cosine v1 v2

/-- Result of one `_ollama_embedding` call: an exception (`err`) or the
`embedding` array of the response (possibly `[]`, the `.get` default). -/
inductive EmbedResult where
  | err
  | ok (v : List Rat)
deriving Repr, DecidableEq

/-- `_compute_semantic_score`: `None` when either embeddings call raises
or either returned vector is empty, otherwise the cosine similarity. -/
def _compute_semantic_score (vec_essay vec_ideal : EmbedResult) :
    Option SimValue :=
  match vec_essay, vec_ideal with
  | .err, _ => none
  | .ok _, .err => none
  | .ok v1, .ok v2 =>
    if v1 = [] ∨ v2 = [] then none
    else some (_cosine_similarity v1 v2)

/-! ### The parsed model response and the external-call outcome -/

/-- One element of a model-supplied `deductions` list: a JSON object
(modelled by `LLMDeduction`) or any other JSON value, which the
normalisation loop skips. -/
structure LLMDeduction where
  reason : Option String
  note : Option String
  /-- `int(d.get("points"))` when that conversion succeeds; `none` when
  the key is missing or `int()` raises (the code then uses `0`). -/
  points : Option Int
  requirement : Option String
  evidence : Option String
  category : Option String
deriving Repr, DecidableEq

/-- A `deductions` list element that is not a dict is skipped. -/
inductive LLMDedEntry where
  | notDict
  | dict (d : LLMDeduction)
deriving Repr, DecidableEq

/-- Python `a or b` on strings/None: `None` and `""` are falsy. -/
def orFalsy (a : Option String) (b : String) : String :=
  match a with
  | some s => if s = "" then b else s
  | none => b

/-- `str(d.get("reason") or d.get("note") or "Deduction")`. -/
def resolveReason (reason note : Option String) : String :=
  orFalsy reason (orFalsy note "Deduction")

/-- Normalisation of one model-supplied deduction dict in `grade_essay`:
default the reason, coerce `points` to a clamped non-negative integer,
pass the optional fields through. -/
def normEntry (d : LLMDeduction) : Deduction :=
  { reason := resolveReason d.reason d.note,
    points := max 0 (d.points.getD 0),
    requirement := d.requirement, evidence := d.evidence,
    category := d.category }

/-- The `normalized` list built by `grade_essay` from a model-supplied
deductions list (non-dict entries skipped). -/
def normalizeDeds (l : List LLMDedEntry) : List Deduction :=
  l.filterMap (fun e =>
    match e with
    | .notDict => none
    | .dict d => some (normEntry d))

/-- The fields `grade_essay` reads from a successfully parsed model
response. -/
structure ParsedResponse where
  /-- `int(parsed.get("grade", 0))`; runs where that conversion raises
  are covered by `TryOutcome.fail`. -/
  grade : Int
  /-- `parsed.get("reasons") or []`, mapped through `str`. -/
  reasons : List String
  /-- `parsed.get("coverage") or []`; a non-list value is replaced by the
  heuristic coverage just like an empty one. -/
  coverage : List CoverageItem
  domain_analysis : Option String
  /-- `parsed.get("deductions")` when it is a list, else `none`. -/
  deductions : Option (List LLMDedEntry)
  /-- `json.dumps(parsed, ensure_ascii=False)`, stored in `raw_response`. -/
  dump : String
deriving Repr, DecidableEq

/-- Outcome of the `try` block of `grade_essay` as decided by the external
service: `fail` is any exception raised inside the block (network error,
timeout, malformed-response coercion error) with its class name and
message; `unparseable` is a completed generation whose text defeats
`_parse_llm_json`; `parsed` is a generation parsed into a JSON object. -/
inductive TryOutcome where
  | fail (exCategory exMessage : String)
  | unparseable (raw : String)
  | parsed (p : ParsedResponse)
deriving Repr, DecidableEq

/-! ### GradeResult and the `grade_essay` orchestrator -/

/-- The dataclass `GradeResult`.  `max_points`, `deductions` and
`total_deductions` are declared `Optional` in the source but every return
site populates them, so they are plain fields here. -/
structure GradeResult where
  grade : Int
  reasons : List String
  coverage : List CoverageItem
  backend : String
  model_used : Option String
  raw_response : Option String
  semantic_similarity : Option SimValue
  domain_analysis : Option String
  max_points : Int
  deductions : List Deduction
  total_deductions : Int
deriving Repr, DecidableEq

/-- A dynamically typed Python argument, as far as the call sites of
`grade_essay` can shape one. -/
inductive PyArg where
  | str (s : String)
  | intVal (n : Int)
  | pynone
  | other
deriving Repr, DecidableEq

/-- The `requirements` argument: a Python list (of arbitrary values) or a
non-list. -/
inductive ReqArg where
  | list (xs : List PyArg)
  | nonList
deriving Repr, DecidableEq

/-- `isinstance(requirements, list) and all(isinstance(x, str) for x in requirements)`:
the extracted string list when the check passes. -/
def strList : List PyArg → Option (List String)
  | [] => some []
  | .str s :: rest => (strList rest).map (fun l => s :: l)
  | _ :: _ => none

/-- Validation view of a `ReqArg`. -/
def ReqArg.asStrList : ReqArg → Option (List String)
  | .list xs => strList xs
  | .nonList => none

/-- Body of `grade_essay` after validation, for a fixed outcome of the
external calls (`sim` is the value of `similarity_score`, `out` the fate
of the `try` block). -/
def gradeEssayBody (essay : String) (requirements : List String)
    (model : String) (max_points : Int) (sim : Option SimValue)
    (out : TryOutcome) : GradeResult :=
  match out with
  | .fail exCategory exMessage =>
    let coverage := _heuristic_coverage essay requirements
    let grade := _coverage_to_grade coverage max_points
    let dd := _synthesize_deductions grade max_points coverage
    { grade := grade,
      reasons := ["Local model unavailable or call failed; applied heuristic grading.",
                  "Reason: " ++ exCategory ++ ": " ++ exMessage],
      coverage := coverage, backend := "fallback", model_used := none,
      raw_response := none, semantic_similarity := none, domain_analysis := none,
      max_points := max_points, deductions := dd.1, total_deductions := dd.2 }
  | .unparseable raw =>
    let coverage := _heuristic_coverage essay requirements
    let grade := _coverage_to_grade coverage max_points
    let dd := _synthesize_deductions grade max_points coverage
    { grade := grade,
      reasons := ["LLM returned non-JSON. Extracted text provided in raw_response; using heuristic coverage for structure.",
                  "Consider adjusting the prompt or model to improve JSON adherence."],
      coverage := coverage, backend := "ollama", model_used := some model,
      raw_response := some raw, semantic_similarity := sim, domain_analysis := none,
      max_points := max_points, deductions := dd.1, total_deductions := dd.2 }
  | .parsed p =>
    let grade := max 0 (min max_points p.grade)
    let coverage :=
      if p.coverage.isEmpty then _heuristic_coverage essay requirements
      else p.coverage
    let dd :=
      match p.deductions with
      | some entries =>
        if entries.isEmpty then _synthesize_deductions grade max_points coverage
        else
          let normalized := normalizeDeds entries
          let total_ded := (normalized.map (fun (x : Deduction) => x.points)).sum
          let expected := max_points - grade
          if total_ded ≠ expected then
            (normalized ++
              [({ reason := "Reconciliation: deductions (" ++ toString total_ded
                    ++ ") did not equal max_points-grade (" ++ toString expected
                    ++ "); keeping grade and recording actual difference.",
                  points := max 0 (expected - total_ded),
                  requirement := none, evidence := none,
                  category := some "reconciliation" } : Deduction)], expected)
          else (normalized, total_ded)
      | none => _synthesize_deductions grade max_points coverage
    { grade := grade,
      reasons := if p.reasons.isEmpty then ["Model did not provide reasons."]
                 else p.reasons,
      coverage := coverage, backend := "ollama", model_used := some model,
      raw_response := some p.dump, semantic_similarity := sim,
      domain_analysis := p.domain_analysis,
      max_points := max_points, deductions := dd.1, total_deductions := dd.2 }

/-- `grade_essay(essay, requirements, ...)`: validate the arguments
(raising `ValueError`, modelled by `Except.error`), then run the body on
the outcome of the external calls. -/
def grade_essay (essay : PyArg) (requirements : ReqArg) (model : String)
    (max_points : Int) (sim : Option SimValue) (out : TryOutcome) :
    Except String GradeResult :=
  match essay with
  | .str es =>
    if pyStripIsEmpty es then .error "essay must be a non-empty string"
    else
      match requirements.asStrList with
      | none => .error "requirements must be a list of strings"
      | some reqs => .ok (gradeEssayBody es reqs model max_points sim out)
  | _ => .error "essay must be a non-empty string"

/-! ### QuizScoringAggregator (`grader.py`) -/

/-- A quiz question as `grade_quiz` sees it after `_question_type`
dispatch: a multiple-choice dict (`correct_index`, optional `points`) or
an essay dict (optional `requirements`, optional `max_points`/`points`).
`Option` on the integer fields stands for a missing key or a value
`int()` cannot convert (the source then falls back to the default). -/
inductive Question where
  | mc (correct_index : Option Int) (pointsRaw : Option Int)
  | essay (requirementsField : Option ReqArg) (maxPtsRaw : Option Int)
deriving Repr, DecidableEq

/-- An aligned answer value as the client supplies it: an option index,
free text, or JSON null. -/
inductive Answer where
  | int (n : Int)
  | str (s : String)
  | pynone
deriving Repr, DecidableEq

/-- `_points_for_mc(q)`: `int(q.get('points', 1))`, defaulting to 1. -/
def pointsForMC (pointsRaw : Option Int) : Int := pointsRaw.getD 1

/-- `_points_for_essay(q)`: `max(1, int(q.get('max_points', q.get('points', 10))))`,
with 10 on a missing key or failed conversion. -/
def pointsForEssay (maxPtsRaw : Option Int) : Int :=
  match maxPtsRaw with
  | some v => max 1 v
  | none => 10

/-- `essay_text = a if isinstance(a, str) else (a or '')`: a string stays
itself, falsy values collapse to `''`, a truthy non-string is handed to
`grade_essay` unchanged (where its type check fails). -/
def essayArgOf : Answer → PyArg
  | .str s => .str s
  | .int n => if n = 0 then .str "" else .intVal n
  | .pynone => .str ""

/-- `requirements = q.get('requirements') or []`, replaced by `[]` when
not a list. -/
def essayReqArg : Option ReqArg → ReqArg
  | some (.list xs) => .list xs
  | _ => .list []

/-- Type-specific details carried in a per-question result. -/
inductive QDetails where
  | mcDetails (selected_index correct_index : Option Int)
  | essayDetails (eg : GradeResult)
deriving Repr, DecidableEq

/-- One element of `per_question`. -/
structure PerQuestion where
  qtype : String
  awarded : Int
  max_points : Int
  correct : Option Bool
  details : QDetails
deriving Repr, DecidableEq

/-- `round(x, 2)` on an exact rational. -/
def round2 (q : Rat) : Rat := ((roundHalfEven (q * 100) : Rat)) / 100

/-- The quiz-level result of `grade_quiz`. -/
structure QuizScore where
  score : Int
  total : Int
  percent : Rat
  per_question : List PerQuestion
deriving Repr, DecidableEq

/-- `ai = a if isinstance(a, int) else None`: the selected option index
of a multiple-choice answer. -/
def selectedIndex : Answer → Option Int
  | .int n => some n
  | _ => none

/-- `correct = (ai is not None) and (ai == ci)`. -/
def mcCorrect : Option Int → Option Int → Bool
  | some x, some y => decide (x = y)
  | _, _ => false

/-- Grade a single question of the quiz, given the external-call outcome
`env` for this question (used only by essay questions).  `Except.error`
models the `ValueError` `grade_essay` can raise out of `grade_quiz`. -/
def gradeQuestion (model : String) (env : Option SimValue × TryOutcome)
    (q : Question) (a : Answer) : Except String PerQuestion :=
  match q with
  | .essay reqField maxPtsRaw =>
    let max_pts := pointsForEssay maxPtsRaw
    match grade_essay (essayArgOf a) (essayReqArg reqField) model 100 env.1 env.2 with
    | .error e => .error e
    | .ok eg =>
      let awarded := max 0 (min max_pts (roundHalfEven ((eg.grade : Rat) / 100 * (max_pts : Rat))))
      .ok { qtype := "essay", awarded := awarded, max_points := max_pts,
            correct := none, details := .essayDetails eg }
  | .mc ci ptsRaw =>
    let max_pts := pointsForMC ptsRaw
    let ai : Option Int := selectedIndex a
    let correct : Bool := mcCorrect ai ci
    let awarded := if correct then max_pts else 0
    .ok { qtype := "mc", awarded := awarded, max_points := max_pts,
          correct := some correct, details := .mcDetails ai ci }

/-- The grading loop of `grade_quiz`: question `i` is paired with
`answers[i] if i < len(answers) else None`; the first `ValueError` from
`grade_essay` propagates. -/
def gradeAll (model : String) (env : Nat → Option SimValue × TryOutcome)
    (answers : List Answer) : Nat → List Question → Except String (List PerQuestion)
  | _, [] => .ok []
  | i, q :: qs =>
    match gradeQuestion model (env i) q (answers.getD i .pynone) with
    | .error e => .error e
    | .ok pq =>
      match gradeAll model env answers (i + 1) qs with
      | .error e => .error e
      | .ok rest => .ok (pq :: rest)

/-- `grade_quiz(quiz, answers)`: per-question results, then the totals and
the percentage (`0.0` when there are no points at stake). -/
def grade_quiz (model : String) (env : Nat → Option SimValue × TryOutcome)
    (questions : List Question) (answers : List Answer) :
    Except String QuizScore :=
  match gradeAll model env answers 0 questions with
  | .error e => .error e
  | .ok pqs =>
    let score := (pqs.map (fun (p : PerQuestion) => p.awarded)).sum
    let total := (pqs.map (fun (p : PerQuestion) => p.max_points)).sum
    let percent := if total ≠ 0 then round2 ((score : Rat) / (total : Rat) * 100) else 0
    .ok { score := score, total := total, percent := percent, per_question := pqs }

/-! ### Helper lemmas -/

/-- Banker's rounding never undershoots the floor. -/
theorem floor_le_roundHalfEven (q : Rat) : ⌊q⌋ ≤ roundHalfEven q := by
  unfold roundHalfEven
  dsimp only
  split
  · exact le_refl _
  · split
    · omega
    · split <;> omega

/-- Banker's rounding exceeds the floor by at most one. -/
theorem roundHalfEven_le_floor_add_one (q : Rat) : roundHalfEven q ≤ ⌊q⌋ + 1 := by
  unfold roundHalfEven
  dsimp only
  split
  · omega
  · split
    · omega
    · split <;> omega

/-- An integer lower bound on the argument bounds the rounding. -/
theorem le_roundHalfEven (a : Int) (q : Rat) (h : (a : Rat) ≤ q) :
    a ≤ roundHalfEven q := by
  have h1 : a ≤ ⌊q⌋ := Int.le_floor.mpr h
  have h2 := floor_le_roundHalfEven q
  omega

/-- An integer upper bound on the argument bounds the rounding. -/
theorem roundHalfEven_le (q : Rat) (b : Int) (h : q ≤ (b : Rat)) :
    roundHalfEven q ≤ b := by
  rcases lt_or_eq_of_le (Int.floor_le_floor h) with hf | hf
  · rw [Int.floor_intCast] at hf
    have := roundHalfEven_le_floor_add_one q
    omega
  · rw [Int.floor_intCast] at hf
    have hq' : (b : Rat) ≤ q := by
      rw [← hf]
      exact Int.floor_le q
    have hbq : q = (b : Rat) := le_antisymm h hq'
    subst hbq
    unfold roundHalfEven
    dsimp only
    rw [Int.floor_intCast]
    have : (b : Rat) - (b : Rat) = 0 := by ring
    rw [this]
    norm_num

/-- `_coverage_to_grade` stays within `[0, max_points]` for a
non-negative maximum. -/
theorem coverage_to_grade_bounds (coverage : List CoverageItem)
    (max_points : Int) (hmp : 0 ≤ max_points) :
    0 ≤ _coverage_to_grade coverage max_points
      ∧ _coverage_to_grade coverage max_points ≤ max_points := by
  unfold _coverage_to_grade
  split
  · exact ⟨le_refl 0, hmp⟩
  · constructor
    · apply le_roundHalfEven
      push_cast
      apply le_min
      · exact_mod_cast hmp
      · exact le_max_left _ _
    · apply roundHalfEven_le
      exact min_le_left _ _

/-- Sum of a mapped constant-plus-indicator over `List.range`. -/
theorem sum_range_base_ite (n : Nat) (base rem : Int) (h0 : 0 ≤ rem) :
    ((List.range n).map
        (fun (i : Nat) => base + (if (i : Int) < rem then (1 : Int) else 0))).sum
      = n * base + min rem n := by
  induction n with
  | zero =>
    simp only [List.range_zero, List.map_nil, List.sum_nil, Nat.cast_zero,
      zero_mul, zero_add]
    omega
  | succ n ih =>
    rw [List.range_succ, List.map_append, List.sum_append]
    simp only [List.map_cons, List.map_nil, List.sum_cons, List.sum_nil]
    rw [ih]
    have hexp : ((n : Int) + 1) * base = (n : Int) * base + base := by ring
    by_cases hn : (n : Int) < rem
    · simp only [if_pos hn]
      push_cast
      rw [hexp]
      omega
    · simp only [if_neg hn]
      push_cast
      rw [hexp]
      omega

/-- Mapping a function of the index over `l.enum` is mapping it over
`List.range l.length`. -/
theorem enum_map_index (l : List α) (f : Nat → β) :
    l.enum.map (fun p => f p.1) = (List.range l.length).map f := by
  have h1 : (fun p : Nat × α => f p.1) = f ∘ Prod.fst := rfl
  rw [h1, ← List.map_map, List.enum_map_fst]

/-- The synthesized deductions always sum to their reported total, and
that total is `max 0 (max_points - grade)`. -/
theorem synthesize_sum (grade max_points : Int) (coverage : List CoverageItem) :
    ((_synthesize_deductions grade max_points coverage).1.map
        (fun d => d.points)).sum
      = (_synthesize_deductions grade max_points coverage).2
    ∧ (_synthesize_deductions grade max_points coverage).2
      = max 0 (max_points - grade) := by
  unfold _synthesize_deductions
  dsimp only
  split
  · next hzero => simp [hzero]
  · next hnz =>
    split
    · next hemp => simp
    · next hnemp =>
      refine ⟨?_, rfl⟩
      dsimp only
      set missing : Int := max 0 (max_points - grade) with hmissing
      set missed := coverage.filter (fun c => !c.addressed) with hmissed
      have hn : 0 < missed.length := by
        cases hm : missed with
        | nil => rw [hm] at hnemp; simp at hnemp
        | cons a l => simp [hm]
      rw [List.map_map]
      have hshape : ((fun (d : Deduction) => d.points) ∘ fun (ic : Nat × CoverageItem) =>
          ({ reason := "Missing requirement: " ++ ic.2.requirement.getD "",
             points := missing / missed.length + (if (ic.1 : Int) < missing - missing / missed.length * missed.length then 1 else 0),
             requirement := ic.2.requirement, evidence := ic.2.evidence,
             category := some "missing_requirement" } : Deduction))
          = fun (ic : Nat × CoverageItem) =>
            missing / missed.length + (if (ic.1 : Int) < missing - missing / missed.length * missed.length then 1 else 0) := rfl
      rw [hshape]
      rw [enum_map_index missed
        (fun i => missing / missed.length + (if (i : Int) < missing - missing / missed.length * missed.length then 1 else 0))]
      have hmpos : 0 < missing := by
        have : 0 ≤ missing := le_max_left _ _
        omega
      have hnz' : (missed.length : Int) ≠ 0 := by exact_mod_cast hn.ne'
      have hrem : missing - missing / missed.length * missed.length
          = missing % (missed.length : Int) := by
        rw [Int.emod_def]
        ring
      have hremnn : 0 ≤ missing % (missed.length : Int) := Int.emod_nonneg _ hnz'
      have hremlt : missing % (missed.length : Int) < missed.length :=
        Int.emod_lt_of_pos _ (by exact_mod_cast hn)
      rw [hrem]
      rw [sum_range_base_ite missed.length (missing / missed.length)
        (missing % (missed.length : Int)) hremnn]
      have hminr : min (missing % (missed.length : Int)) (missed.length : Int)
          = missing % (missed.length : Int) := min_eq_left (le_of_lt hremlt)
      rw [hminr]
      have hdm := Int.ediv_add_emod missing (missed.length : Int)
      omega

/-- The grade produced by the body lies in `[0, max_points]` on every
path, for a non-negative maximum. -/
theorem gradeEssayBody_grade_bounds (essay : String) (requirements : List String)
    (model : String) (max_points : Int) (sim : Option SimValue)
    (out : TryOutcome) (hmp : 0 ≤ max_points) :
    0 ≤ (gradeEssayBody essay requirements model max_points sim out).grade
      ∧ (gradeEssayBody essay requirements model max_points sim out).grade
          ≤ max_points := by
  cases out with
  | fail c m =>
    simp only [gradeEssayBody]
    exact coverage_to_grade_bounds _ _ hmp
  | unparseable raw =>
    simp only [gradeEssayBody]
    exact coverage_to_grade_bounds _ _ hmp
  | parsed p =>
    simp only [gradeEssayBody]
    constructor
    · exact le_max_left _ _
    · exact max_le hmp (min_le_left _ _)

/-- The essay argument passes validation: a string that is non-empty
after `strip()`. -/
def validEssayArg : PyArg → Prop
  | .str s => pyStripIsEmpty s = false
  | _ => False

/-- The requirements argument passes validation: a list of strings. -/
def validReqsArg (rq : ReqArg) : Prop := ∃ l, rq.asStrList = some l

/-- Valid arguments make `grade_essay` return the body's result. -/
theorem grade_essay_ok_of_valid (es : String) (rq : ReqArg)
    (reqs : List String) (model : String) (max_points : Int)
    (sim : Option SimValue) (out : TryOutcome)
    (hes : pyStripIsEmpty es = false) (hrq : rq.asStrList = some reqs) :
    grade_essay (.str es) rq model max_points sim out
      = .ok (gradeEssayBody es reqs model max_points sim out) := by
  simp [grade_essay, hes, hrq]

/-- Any successful `grade_essay` run factors through the body on the
validated arguments. -/
theorem grade_essay_ok_inv (essay : PyArg) (requirements : ReqArg)
    (model : String) (max_points : Int) (sim : Option SimValue)
    (out : TryOutcome) (r : GradeResult)
    (hok : grade_essay essay requirements model max_points sim out = .ok r) :
    ∃ es reqs, essay = .str es ∧ requirements.asStrList = some reqs
      ∧ pyStripIsEmpty es = false
      ∧ r = gradeEssayBody es reqs model max_points sim out := by
  cases essay with
  | str es =>
    by_cases hb : pyStripIsEmpty es
    · simp [grade_essay, hb] at hok
    · cases hrl : requirements.asStrList with
      | none => simp [grade_essay, hb, hrl] at hok
      | some reqs =>
        simp [grade_essay, hb, hrl] at hok
        exact ⟨es, reqs, rfl, rfl, by simp [hb], hok.symm⟩
  | intVal n => simp [grade_essay] at hok
  | pynone => simp [grade_essay] at hok
  | other => simp [grade_essay] at hok

/-- C2: for every call to `grade_essay` with valid inputs and
`max_points > 0`, the returned grade satisfies
`0 ≤ grade ≤ max_points`, on every execution path (clamped model grade,
unparseable-model heuristic grade, and fallback heuristic grade). -/
theorem grade_essay_grade_in_range (essay : PyArg) (requirements : ReqArg)
    (model : String) (max_points : Int) (sim : Option SimValue)
    (out : TryOutcome) (r : GradeResult) (hmp : 0 < max_points)
    (hok : grade_essay essay requirements model max_points sim out = .ok r) :
    0 ≤ r.grade ∧ r.grade ≤ max_points := by
  obtain ⟨es, reqs, -, -, -, hr⟩ :=
    grade_essay_ok_inv essay requirements model max_points sim out r hok
  rw [hr]
  exact gradeEssayBody_grade_bounds es reqs model max_points sim out (le_of_lt hmp)

/-- C2 witness: a concrete valid fallback run with `max_points = 100`
has its grade in range. -/
theorem grade_essay_grade_in_range_witness :
    ∃ r, grade_essay (.str "water") (.list []) "m" 100 none (.fail "URLError" "boom")
        = .ok r ∧ 0 ≤ r.grade ∧ r.grade ≤ 100 := by
  refine ⟨gradeEssayBody "water" [] "m" 100 none (.fail "URLError" "boom"), rfl, ?_⟩
  exact grade_essay_grade_in_range (.str "water") (.list []) "m" 100 none
    (.fail "URLError" "boom") _ (by norm_num) rfl

/-- C3: `grade_essay` fails with `ValueError` if and only if the essay
argument is not a string that is non-empty after stripping, or the
requirements argument is not a list of strings; on all other inputs it
returns a result, whatever the external calls do. -/
theorem grade_essay_error_iff (essay : PyArg) (requirements : ReqArg)
    (model : String) (max_points : Int) (sim : Option SimValue)
    (out : TryOutcome) :
    (∃ e, grade_essay essay requirements model max_points sim out
        = .error e)
      ↔ ¬ (validEssayArg essay ∧ validReqsArg requirements) := by
  cases essay with
  | str es =>
    by_cases hb : pyStripIsEmpty es
    · simp [grade_essay, hb, validEssayArg]
    · cases hrl : requirements.asStrList with
      | none =>
        simp [grade_essay, hb, hrl, validEssayArg, validReqsArg]
      | some reqs =>
        simp [grade_essay, hb, hrl, validEssayArg, validReqsArg]
  | intVal n => simp [grade_essay, validEssayArg]
  | pynone => simp [grade_essay, validEssayArg]
  | other => simp [grade_essay, validEssayArg]

/-- C4: on every valid input, when the `try` block fails (any exception
in the similarity, prompt, generation or parse steps), `grade_essay`
returns the fallback result: heuristic coverage, the coverage-ratio
grade, synthesized deductions, `backend = "fallback"`,
`model_used = None`, and reasons carrying the exception class and
message. -/
theorem grade_essay_fallback_result (es : String) (rq : ReqArg)
    (reqs : List String) (model : String) (max_points : Int)
    (sim : Option SimValue) (exCategory exMessage : String)
    (hes : pyStripIsEmpty es = false) (hrq : rq.asStrList = some reqs) :
    grade_essay (.str es) rq model max_points sim
        (.fail exCategory exMessage)
      = .ok
        { grade := _coverage_to_grade (_heuristic_coverage es reqs) max_points,
          reasons := ["Local model unavailable or call failed; applied heuristic grading.",
                      "Reason: " ++ exCategory ++ ": " ++ exMessage],
          coverage := _heuristic_coverage es reqs,
          backend := "fallback", model_used := none, raw_response := none,
          semantic_similarity := none, domain_analysis := none,
          max_points := max_points,
          deductions := (_synthesize_deductions
            (_coverage_to_grade (_heuristic_coverage es reqs) max_points)
            max_points (_heuristic_coverage es reqs)).1,
          total_deductions := (_synthesize_deductions
            (_coverage_to_grade (_heuristic_coverage es reqs) max_points)
            max_points (_heuristic_coverage es reqs)).2 } := by
  simp [grade_essay, hes, hrq, gradeEssayBody]

/-- C4 witness: the fallback result of a concrete run, with every field
evaluated. -/
theorem grade_essay_fallback_result_witness :
    grade_essay (.str "water") (.list []) "m" 100 none
        (.fail "URLError" "boom")
      = .ok
        { grade := 0,
          reasons := ["Local model unavailable or call failed; applied heuristic grading.",
                      "Reason: URLError: boom"],
          coverage := [], backend := "fallback", model_used := none,
          raw_response := none, semantic_similarity := none,
          domain_analysis := none, max_points := 100,
          deductions := [{ reason := "Partial coverage/quality issues (brevity, clarity, depth, or minor inaccuracies)",
                           points := 100, requirement := none, evidence := none,
                           category := some "partial_coverage" }],
          total_deductions := 100 } := by
  have h := grade_essay_fallback_result "water" (.list []) [] "m" 100 none
    "URLError" "boom" (by decide) rfl
  rw [h]
  rfl


/-- The run took the Normalize mode of the deduction reconciler: the
parsed model response supplied a non-empty deductions list. -/
def isNormalizePath : TryOutcome → Bool
  | .parsed p =>
    match p.deductions with
    | some entries => !entries.isEmpty
    | none => false
  | _ => false

/-- Sum of the points of the normalised model-supplied deductions (before
any reconciliation entry). -/
def normSumOf : TryOutcome → Int
  | .parsed p =>
    match p.deductions with
    | some entries => ((normalizeDeds entries).map (fun d => d.points)).sum
    | none => 0
  | _ => 0

/-- A model-supplied deduction carrying 90 points and nothing else. -/
def ninetyPointDed : LLMDeduction :=
  { reason := none, note := none, points := some 90, requirement := none,
    evidence := none, category := none }

/-- A parsed model response granting 20 of 100 points while declaring a
single 90-point deduction (the model over-sums: 90 > 100 - 20). -/
def overSumResponse : ParsedResponse :=
  { grade := 20, reasons := [], coverage := [], domain_analysis := none,
    deductions := some [.dict ninetyPointDed], dump := "d" }

/-- C1 counterexample: on the over-sum response the deduction points sum
to 90 while `max_points - grade = 80`, so the sum invariant of the claim
fails; `total_deductions` is nevertheless reported as 80. -/
theorem deduction_sum_counterexample :
    Except.map (fun (r : GradeResult) =>
        ((r.deductions.map (fun d => d.points)).sum, r.max_points - r.grade,
         r.total_deductions))
      (grade_essay (.str "x") (.list []) "m" 100 none (.parsed overSumResponse))
      = .ok (90, 80, 80) := by
  rfl

/-- C1 amended: on every valid input with non-negative `max_points`, the
reported `total_deductions` equals `max_points - grade` on every path;
the points of the deduction list sum to `max_points - grade` on the
synthesize paths (no usable model deductions), and on the normalize path
they sum to `max (max_points - grade) (normalized model sum)` — the
excess survives when the model-supplied deductions over-sum, because the
reconciliation entry is clamped at zero points. -/
theorem grade_essay_deductions_reconcile (essay : PyArg)
    (requirements : ReqArg) (model : String) (max_points : Int)
    (sim : Option SimValue) (out : TryOutcome) (r : GradeResult)
    (hmp : 0 ≤ max_points)
    (hok : grade_essay essay requirements model max_points sim out = .ok r) :
    r.total_deductions = max_points - r.grade
    ∧ (r.deductions.map (fun d => d.points)).sum
        = (if isNormalizePath out then
            max (max_points - r.grade) (normSumOf out)
          else max_points - r.grade) := by
  obtain ⟨es, reqs, -, -, -, hr⟩ :=
    grade_essay_ok_inv essay requirements model max_points sim out r hok
  subst hr
  cases out with
  | fail c m =>
    simp only [gradeEssayBody, isNormalizePath]
    have hg := coverage_to_grade_bounds (_heuristic_coverage es reqs) max_points hmp
    have hs := synthesize_sum (_coverage_to_grade (_heuristic_coverage es reqs) max_points)
      max_points (_heuristic_coverage es reqs)
    simp only [Bool.false_eq_true, if_false]
    constructor
    · rw [hs.2]; omega
    · rw [hs.1, hs.2]; omega
  | unparseable raw =>
    simp only [gradeEssayBody, isNormalizePath]
    have hg := coverage_to_grade_bounds (_heuristic_coverage es reqs) max_points hmp
    have hs := synthesize_sum (_coverage_to_grade (_heuristic_coverage es reqs) max_points)
      max_points (_heuristic_coverage es reqs)
    simp only [Bool.false_eq_true, if_false]
    constructor
    · rw [hs.2]; omega
    · rw [hs.1, hs.2]; omega
  | parsed p =>
    have hgl : (0 : Int) ≤ max 0 (min max_points p.grade) := le_max_left _ _
    have hgu : max 0 (min max_points p.grade) ≤ max_points :=
      max_le hmp (min_le_left _ _)
    simp only [gradeEssayBody, isNormalizePath]
    cases hd : p.deductions with
    | none =>
      simp only [normSumOf, hd, Bool.false_eq_true, if_false]
      have hs := synthesize_sum (max 0 (min max_points p.grade)) max_points
        (if p.coverage.isEmpty then _heuristic_coverage es reqs else p.coverage)
      constructor
      · rw [hs.2]; omega
      · rw [hs.1, hs.2]; omega
    | some entries =>
      cases hent : entries.isEmpty with
      | true =>
        simp only [normSumOf, hd, hent, Bool.not_true, Bool.false_eq_true,
          if_false, if_true]
        have hs := synthesize_sum (max 0 (min max_points p.grade)) max_points
          (if p.coverage.isEmpty then _heuristic_coverage es reqs else p.coverage)
        constructor
        · rw [hs.2]; omega
        · rw [hs.1, hs.2]; omega
      | false =>
        simp only [normSumOf, hd, hent, Bool.not_false, Bool.false_eq_true,
          if_false, if_true]
        by_cases hne : (((normalizeDeds entries).map
            (fun (x : Deduction) => x.points)).sum ≠ max_points - max 0 (min max_points p.grade))
        · rw [if_pos hne]
          refine ⟨rfl, ?_⟩
          rw [List.map_append, List.sum_append]
          simp only [List.map_cons, List.map_nil, List.sum_cons, List.sum_nil]
          omega
        · rw [if_neg hne]
          push_neg at hne
          dsimp only
          rw [hne]
          exact ⟨rfl, (max_self _).symm⟩

/-- C1 amended witness: on the concrete over-sum run, the reported total
is `max_points - grade = 80` and the deduction points sum to
`max (max_points - grade) 90 = 90`. -/
theorem grade_essay_deductions_reconcile_witness :
    ∃ r, grade_essay (.str "x") (.list []) "m" 100 none
          (.parsed overSumResponse) = .ok r
      ∧ r.total_deductions = 100 - r.grade
      ∧ (r.deductions.map (fun d => d.points)).sum = max (100 - r.grade) 90 := by
  refine ⟨gradeEssayBody "x" [] "m" 100 none (.parsed overSumResponse), rfl, ?_⟩
  have h := grade_essay_deductions_reconcile (.str "x") (.list []) "m" 100 none
    (.parsed overSumResponse) _ (by norm_num) rfl
  refine ⟨h.1, ?_⟩
  have h2 := h.2
  rw [if_pos (by rfl)] at h2
  rw [h2]
  rfl

/-- C6 counterexample: two non-empty zero vectors have zero magnitude,
yet the similarity delivered to the caller is the value `0.0`
(`some (ratVal 0)`), not `None`. -/
theorem semantic_score_zero_magnitude_counterexample :
    _compute_semantic_score (.ok [0]) (.ok [0])
      = some (.ratVal 0) := by
  simp [_compute_semantic_score, _cosine_similarity, sumsq]

/-- C6 amended: when either embeddings call raises or either returned
vector is empty the caller receives `None`; when both vectors are
non-empty but differ in length or either has zero magnitude the caller
receives the float `0.0` (not `None`); otherwise the similarity is the
dot product divided by the product of the magnitudes. -/
theorem semantic_score_characterisation (e1 e2 : EmbedResult) :
    match e1, e2 with
    | .ok v1, .ok v2 =>
      if v1 = [] ∨ v2 = [] then
        _compute_semantic_score e1 e2 = none
      else if v1.length ≠ v2.length ∨ sumsq v1 = 0 ∨ sumsq v2 = 0 then
        ∃ s, _compute_semantic_score e1 e2 = some s ∧ s.val = 0
      else
        ∃ s, _compute_semantic_score e1 e2 = some s
          ∧ s.val = (dotp v1 v2 : ℝ)
              / (Real.sqrt (sumsq v1) * Real.sqrt (sumsq v2))
    | _, _ => _compute_semantic_score e1 e2 = none := by
  cases e1 with
  | err => rfl
  | ok v1 =>
    cases e2 with
    | err => rfl
    | ok v2 =>
      dsimp only
      by_cases hemp : v1 = [] ∨ v2 = []
      · rw [if_pos hemp]
        simp [_compute_semantic_score, hemp]
      · rw [if_neg hemp]
        push_neg at hemp
        have hscore : _compute_semantic_score (.ok v1) (.ok v2)
            = some (_cosine_similarity v1 v2) := by
          simp only [_compute_semantic_score]
          rw [if_neg (by push_neg; exact hemp)]
        by_cases hdeg : v1.length ≠ v2.length ∨ sumsq v1 = 0 ∨ sumsq v2 = 0
        · rw [if_pos hdeg]
          have hcos : _cosine_similarity v1 v2 = .ratVal 0 := by
            unfold _cosine_similarity
            by_cases hlen : v1.length ≠ v2.length
            · rw [if_pos (Or.inr (Or.inr hlen))]
            · push_neg at hlen
              rw [if_neg (by push_neg; exact ⟨hemp.1, hemp.2, hlen⟩)]
              have hz : sumsq v1 = 0 ∨ sumsq v2 = 0 := by
                rcases hdeg with h | h
                · exact absurd hlen h
                · exact h
              rw [if_pos hz]
          refine ⟨.ratVal 0, ?_, by simp [SimValue.val]⟩
          rw [hscore, hcos]
        · rw [if_neg hdeg]
          push_neg at hdeg
          have hcos : _cosine_similarity v1 v2 = .cosine v1 v2 := by
            unfold _cosine_similarity
            rw [if_neg (by push_neg; exact ⟨hemp.1, hemp.2, hdeg.1⟩)]
            rw [if_neg (by push_neg; exact ⟨hdeg.2.1, hdeg.2.2⟩)]
          exact ⟨.cosine v1 v2, by rw [hscore, hcos], rfl⟩

/-- C7: for `0 ≤ grade ≤ max_points`, the synthesized deductions are:
empty when no points are missing; otherwise, with `n > 0` unaddressed
coverage items, one `missing_requirement` entry per unaddressed item in
original order carrying `missing / n` points plus one extra for the
first `missing % n` items, with `requirement` and `evidence` copied
through, and the points summing to `missing`; with no unaddressed items,
a single `partial_coverage` entry carrying all missing points. -/
theorem synthesize_deductions_spec (grade max_points : Int)
    (coverage : List CoverageItem) (h0 : 0 ≤ grade) (h1 : grade ≤ max_points) :
    (max_points - grade = 0 →
      _synthesize_deductions grade max_points coverage = ([], 0))
    ∧ (max_points - grade ≠ 0 →
        coverage.filter (fun c => !c.addressed) ≠ [] →
        (_synthesize_deductions grade max_points coverage).2 = max_points - grade
        ∧ ((_synthesize_deductions grade max_points coverage).1.map
            (fun d => d.points)).sum = max_points - grade
        ∧ (_synthesize_deductions grade max_points coverage).1.length
            = (coverage.filter (fun c => !c.addressed)).length
        ∧ ∀ i (hi : i < (coverage.filter (fun c => !c.addressed)).length),
            ∃ hj : i < (_synthesize_deductions grade max_points coverage).1.length,
              ((_synthesize_deductions grade max_points coverage).1.get ⟨i, hj⟩).points
                  = (max_points - grade)
                      / ((coverage.filter (fun c => !c.addressed)).length : Int)
                    + (if (i : Int) < (max_points - grade)
                          % ((coverage.filter (fun c => !c.addressed)).length : Int)
                       then 1 else 0)
              ∧ ((_synthesize_deductions grade max_points coverage).1.get
                    ⟨i, hj⟩).category = some "missing_requirement"
              ∧ ((_synthesize_deductions grade max_points coverage).1.get
                    ⟨i, hj⟩).requirement
                  = ((coverage.filter (fun c => !c.addressed)).get ⟨i, hi⟩).requirement
              ∧ ((_synthesize_deductions grade max_points coverage).1.get
                    ⟨i, hj⟩).evidence
                  = ((coverage.filter (fun c => !c.addressed)).get ⟨i, hi⟩).evidence)
    ∧ (max_points - grade ≠ 0 →
        coverage.filter (fun c => !c.addressed) = [] →
        _synthesize_deductions grade max_points coverage
          = ([{ reason := "Partial coverage/quality issues (brevity, clarity, depth, or minor inaccuracies)",
                points := max_points - grade, requirement := none, evidence := none,
                category := some "partial_coverage" }], max_points - grade)) := by
  have hmg : max 0 (max_points - grade) = max_points - grade := by omega
  refine ⟨?_, ?_, ?_⟩
  · intro hz
    simp only [_synthesize_deductions, hmg]
    rw [if_pos hz]
  · intro hnz hne
    have hemp : (coverage.filter (fun c => !c.addressed)).isEmpty = false := by
      cases hm : coverage.filter (fun c => !c.addressed) with
      | nil => exact absurd hm hne
      | cons a l => rfl
    have hnpos : 0 < (coverage.filter (fun c => !c.addressed)).length := by
      cases hm : coverage.filter (fun c => !c.addressed) with
      | nil => exact absurd hm hne
      | cons a l => simp
    have hred : _synthesize_deductions grade max_points coverage
        = ((coverage.filter (fun c => !c.addressed)).enum.map (fun ic =>
            ({ reason := "Missing requirement: " ++ ic.2.requirement.getD "",
               points := (max_points - grade)
                   / ((coverage.filter (fun c => !c.addressed)).length : Int)
                 + (if (ic.1 : Int) < (max_points - grade)
                       - (max_points - grade)
                           / ((coverage.filter (fun c => !c.addressed)).length : Int)
                         * ((coverage.filter (fun c => !c.addressed)).length : Int)
                    then 1 else 0),
               requirement := ic.2.requirement, evidence := ic.2.evidence,
               category := some "missing_requirement" } : Deduction)),
           max_points - grade) := by
      simp only [_synthesize_deductions, hmg]
      rw [if_neg hnz]
      simp only [hemp, Bool.false_eq_true, if_false]
    have hs := synthesize_sum grade max_points coverage
    refine ⟨by rw [hred], ?_, ?_, ?_⟩
    · rw [hs.1, hs.2]
      omega
    · rw [hred]
      simp
    · intro i hi
      have hlen : (_synthesize_deductions grade max_points coverage).1.length
          = (coverage.filter (fun c => !c.addressed)).length := by
        rw [hred]; simp
      refine ⟨by omega, ?_, ?_, ?_, ?_⟩ <;>
        · simp only [List.get_eq_getElem, hred, List.getElem_map, List.getElem_enum]
          try rfl
          try
            congr 1
            rw [Int.emod_def]
            ring_nf
  · intro hnz hmty
    simp only [_synthesize_deductions, hmg]
    rw [if_neg hnz]
    simp only [hmty, List.isEmpty_nil, if_true]

/-- A small coverage list: one addressed item between two unaddressed
ones. -/
def sampleCoverage : List CoverageItem :=
  [{ requirement := some "a", addressed := false, evidence := some "ea" },
   { requirement := some "b", addressed := true, evidence := some "eb" },
   { requirement := some "c", addressed := false, evidence := some "ec" }]

/-- C7 witness: grade 7 of 10 on the sample coverage distributes the 3
missing points as 2 + 1 over the two unaddressed items. -/
theorem synthesize_deductions_spec_witness :
    (_synthesize_deductions 7 10 sampleCoverage).2 = 10 - 7
      ∧ ((_synthesize_deductions 7 10 sampleCoverage).1.map
          (fun d => d.points)).sum = 10 - 7 := by
  have h := synthesize_deductions_spec 7 10 sampleCoverage (by norm_num) (by norm_num)
  have h2 := h.2.1 (by norm_num) (by decide)
  exact ⟨h2.1, h2.2.1⟩

/-- C8: for `max_points > 0`, the coverage-to-grade mapping returns the
banker's rounding of `max_points * (addressed / total)`, a value clamped
within `[0, max_points]`, and returns 0 on empty coverage. -/
theorem coverage_to_grade_spec (coverage : List CoverageItem)
    (max_points : Int) (hmp : 0 < max_points) :
    (coverage = [] → _coverage_to_grade coverage max_points = 0)
    ∧ (coverage ≠ [] →
        _coverage_to_grade coverage max_points
          = roundHalfEven ((max_points : Rat)
              * (((coverage.filter (fun c => c.addressed)).length : Rat)
                  / (coverage.length : Rat)))
        ∧ 0 ≤ _coverage_to_grade coverage max_points
        ∧ _coverage_to_grade coverage max_points ≤ max_points) := by
  constructor
  · intro h
    simp [_coverage_to_grade, h]
  · intro hne
    have hnpos : 0 < coverage.length := List.length_pos.mpr hne
    have hnQ : (0 : Rat) < (coverage.length : Rat) := by exact_mod_cast hnpos
    have hcount : coverage.countP (fun c => c.addressed)
        = (coverage.filter (fun c => c.addressed)).length :=
      List.countP_eq_length_filter _ _
    have hale : (coverage.filter (fun c => c.addressed)).length ≤ coverage.length :=
      List.length_filter_le _ _
    have haQ : ((coverage.filter (fun c => c.addressed)).length : Rat)
        ≤ (coverage.length : Rat) := by exact_mod_cast hale
    have hmpQ : (0 : Rat) ≤ (max_points : Rat) := by exact_mod_cast le_of_lt hmp
    have hx0 : (0 : Rat) ≤ ((coverage.filter (fun c => c.addressed)).length : Rat)
        * (max_points : Rat) / (coverage.length : Rat) :=
      div_nonneg (mul_nonneg (by positivity) hmpQ) (le_of_lt hnQ)
    have hxmp : ((coverage.filter (fun c => c.addressed)).length : Rat)
        * (max_points : Rat) / (coverage.length : Rat) ≤ (max_points : Rat) := by
      rw [div_le_iff₀ hnQ]
      calc ((coverage.filter (fun c => c.addressed)).length : Rat) * (max_points : Rat)
          ≤ (coverage.length : Rat) * (max_points : Rat) :=
            mul_le_mul_of_nonneg_right haQ hmpQ
        _ = (max_points : Rat) * (coverage.length : Rat) := by ring
    have hred : _coverage_to_grade coverage max_points
        = roundHalfEven (((coverage.filter (fun c => c.addressed)).length : Rat)
            * (max_points : Rat) / (coverage.length : Rat)) := by
      simp only [_coverage_to_grade, hcount, if_neg hne]
      congr 1
      rw [max_eq_right hx0, min_eq_right hxmp]
    refine ⟨?_, ?_, ?_⟩
    · rw [hred]
      congr 1
      ring
    · rw [hred]
      exact le_roundHalfEven 0 _ (by exact_mod_cast hx0)
    · rw [hred]
      exact roundHalfEven_le _ _ hxmp

/-- The ratio test `matches / max(1, len(tokens)) >= 0.5` of the source
is the integer test `len(tokens) <= 2 * matches` once tokens exist. -/
theorem ratio_test_iff (m n : Nat) (hn : 0 < n) :
    ((1 : Rat)/2 ≤ (m : Rat) / ((max 1 n : Nat) : Rat)) ↔ n ≤ 2 * m := by
  have hmax : max 1 n = n := by omega
  rw [hmax]
  rw [le_div_iff₀ (by exact_mod_cast hn : (0 : Rat) < (n : Rat))]
  constructor
  · intro h
    have h2 : (n : Rat) ≤ 2 * (m : Rat) := by linarith
    exact_mod_cast h2
  · intro h
    have h2 : (n : Rat) ≤ 2 * (m : Rat) := by exact_mod_cast h
    linarith

/-- `_simple_requirement_match` in closed form: the requirement is
addressed iff it has tokens and either at least half of them occur
whole-word in the essay or at least three do; the evidence is the
snippet exactly when addressed. -/
theorem simple_requirement_match_spec (essay_lc req : String) :
    _simple_requirement_match essay_lc req
      = (decide (reqTokens req ≠ []
            ∧ ((reqTokens req).length
                  ≤ 2 * (reqTokens req).countP (fun t => hasWordMatch essay_lc.data t)
               ∨ 3 ≤ (reqTokens req).countP (fun t => hasWordMatch essay_lc.data t))),
         if reqTokens req ≠ []
            ∧ ((reqTokens req).length
                  ≤ 2 * (reqTokens req).countP (fun t => hasWordMatch essay_lc.data t)
               ∨ 3 ≤ (reqTokens req).countP (fun t => hasWordMatch essay_lc.data t))
         then findEvidence essay_lc.data (reqTokens req) else "") := by
  by_cases ht : reqTokens req = []
  · simp [_simple_requirement_match, ht]
  · have hlen : 0 < (reqTokens req).length := List.length_pos.mpr ht
    have hiff := ratio_test_iff
      ((reqTokens req).countP (fun t => hasWordMatch essay_lc.data t))
      (reqTokens req).length hlen
    have haddr : (decide ((1 : Rat)/2
          ≤ (((reqTokens req).countP (fun t => hasWordMatch essay_lc.data t) : Nat) : Rat)
            / ((max 1 (reqTokens req).length : Nat) : Rat))
        || decide (3 ≤ (reqTokens req).countP (fun t => hasWordMatch essay_lc.data t)))
        = decide (reqTokens req ≠ []
            ∧ ((reqTokens req).length
                  ≤ 2 * (reqTokens req).countP (fun t => hasWordMatch essay_lc.data t)
               ∨ 3 ≤ (reqTokens req).countP (fun t => hasWordMatch essay_lc.data t))) := by
      rw [Bool.eq_iff_iff]
      simp only [Bool.or_eq_true, decide_eq_true_eq]
      constructor
      · intro h
        exact ⟨ht, h.imp (fun hr => hiff.mp hr) id⟩
      · intro h
        exact h.2.imp (fun hr => hiff.mpr hr) id
    simp only [_simple_requirement_match, if_neg ht]
    rw [haddr]
    congr 1
    simp only [decide_eq_true_eq]

/-- C5: the heuristic coverage is exactly one item per non-blank
requirement, in original order, carrying the stripped requirement text;
an item is addressed iff its requirement has tokens left after the
length filter and either at least half of the tokens occur whole-word in
the lowercased essay or at least three do; the evidence is empty unless
the item is addressed. -/
theorem heuristic_coverage_spec (essay : String) (requirements : List String) :
    _heuristic_coverage essay requirements
      = ((requirements.map pyStrip).filter (fun r => r ≠ "")).map (fun r =>
          { requirement := some r,
            addressed := decide (reqTokens r ≠ []
              ∧ ((reqTokens r).length
                    ≤ 2 * (reqTokens r).countP
                        (fun t => hasWordMatch (pyLower essay).data t)
                 ∨ 3 ≤ (reqTokens r).countP
                        (fun t => hasWordMatch (pyLower essay).data t))),
            evidence := some (if reqTokens r ≠ []
                ∧ ((reqTokens r).length
                      ≤ 2 * (reqTokens r).countP
                          (fun t => hasWordMatch (pyLower essay).data t)
                   ∨ 3 ≤ (reqTokens r).countP
                          (fun t => hasWordMatch (pyLower essay).data t))
              then findEvidence (pyLower essay).data (reqTokens r) else "") }) := by
  induction requirements with
  | nil => rfl
  | cons req rest ih =>
    by_cases hb : pyStrip req = ""
    · have hl : _heuristic_coverage essay (req :: rest)
          = _heuristic_coverage essay rest := by
        simp only [_heuristic_coverage, List.filterMap_cons, hb]
        rfl
      rw [hl, ih, List.map_cons]
      congr 1
      rw [List.filter_cons]
      rw [if_neg (by simp [hb])]
    · have hl : _heuristic_coverage essay (req :: rest)
          = { requirement := some (pyStrip req),
              addressed := (_simple_requirement_match (pyLower essay) (pyStrip req)).1,
              evidence := some ((_simple_requirement_match (pyLower essay) (pyStrip req)).2) }
            :: _heuristic_coverage essay rest := by
        simp only [_heuristic_coverage, List.filterMap_cons, if_neg hb]
      rw [hl, ih, List.map_cons, List.filter_cons]
      rw [if_pos (by simp [hb])]
      rw [List.map_cons]
      congr 1
      rw [simple_requirement_match_spec (pyLower essay) (pyStrip req)]

/-- C9: for a multiple-choice question with positive points, the awarded
points are the question's points exactly when the answer is the integer
equal to `correct_index`, and zero otherwise (a missing or non-integer
answer never matches). -/
theorem mc_award_spec (model : String) (env : Option SimValue × TryOutcome)
    (correct_index points : Int) (a : Answer) (hpts : 0 < points) :
    ∃ pq, gradeQuestion model env (.mc (some correct_index) (some points)) a
        = .ok pq
      ∧ pq.awarded = (if a = Answer.int correct_index then points else 0)
      ∧ (pq.awarded = points ↔ a = Answer.int correct_index) := by
  cases a with
  | int n =>
    by_cases hn : n = correct_index
    · subst hn
      refine ⟨_, rfl, ?_, ?_⟩
      · simp [gradeQuestion, pointsForMC, selectedIndex, mcCorrect]
      · simp [gradeQuestion, pointsForMC, selectedIndex, mcCorrect]
    · refine ⟨_, rfl, ?_, ?_⟩
      · simp [gradeQuestion, pointsForMC, selectedIndex, mcCorrect, hn]
      · simp only [gradeQuestion, pointsForMC, selectedIndex, mcCorrect, Option.getD_some]
        rw [if_neg (by simp [hn])]
        constructor
        · intro h
          exact absurd h.symm (by omega)
        · intro h
          injection h with h
          exact absurd h hn
  | str s =>
    refine ⟨_, rfl, by simp [gradeQuestion, pointsForMC, selectedIndex, mcCorrect], ?_⟩
    simp only [gradeQuestion, pointsForMC, selectedIndex, mcCorrect, Option.getD_some]
    constructor
    · intro h
      simp only [Bool.false_eq_true, if_false] at h
      exact absurd h.symm (by omega)
    · intro h
      exact absurd h (by simp)
  | pynone =>
    refine ⟨_, rfl, by simp [gradeQuestion, pointsForMC, selectedIndex, mcCorrect], ?_⟩
    simp only [gradeQuestion, pointsForMC, selectedIndex, mcCorrect, Option.getD_some]
    constructor
    · intro h
      simp only [Bool.false_eq_true, if_false] at h
      exact absurd h.symm (by omega)
    · intro h
      exact absurd h (by simp)

/-- C9 witness: a three-point question answered with the correct index 2
awards 3; answered with 1 awards 0. -/
theorem mc_award_spec_witness :
    (∃ pq, gradeQuestion "m" (none, .fail "E" "e") (.mc (some 2) (some 3))
        (.int 2) = .ok pq ∧ pq.awarded = 3)
    ∧ (∃ pq, gradeQuestion "m" (none, .fail "E" "e") (.mc (some 2) (some 3))
        (.int 1) = .ok pq ∧ pq.awarded = 0) := by
  constructor
  · obtain ⟨pq, hok, haw, -⟩ := mc_award_spec "m" (none, .fail "E" "e") 2 3
      (.int 2) (by norm_num)
    exact ⟨pq, hok, by rw [haw]; rfl⟩
  · obtain ⟨pq, hok, haw, -⟩ := mc_award_spec "m" (none, .fail "E" "e") 2 3
      (.int 1) (by norm_num)
    exact ⟨pq, hok, by rw [haw]; rfl⟩

/-- The answer aligned with an essay question is blank: missing (`None`),
JSON null, the empty string, or a whitespace-only string. -/
def blankAnswer : Answer → Prop
  | .str s => pyStripIsEmpty s = true
  | .pynone => True
  | .int _ => False

/-- An essay question whose aligned answer is blank makes
`gradeQuestion` raise the `ValueError` of `grade_essay`. -/
theorem gradeQuestion_blank_essay (model : String)
    (env : Option SimValue × TryOutcome) (reqField : Option ReqArg)
    (maxPtsRaw : Option Int) (a : Answer) (ha : blankAnswer a) :
    ∃ e, gradeQuestion model env (.essay reqField maxPtsRaw) a = .error e := by
  cases a with
  | int n => exact absurd ha (by simp [blankAnswer])
  | str s =>
    have hs : pyStripIsEmpty s = true := ha
    refine ⟨"essay must be a non-empty string", ?_⟩
    simp [gradeQuestion, essayArgOf, grade_essay, hs]
  | pynone =>
    refine ⟨"essay must be a non-empty string", ?_⟩
    simp [gradeQuestion, essayArgOf, grade_essay, pyStripIsEmpty]

/-- A blank-answered essay question anywhere in the list makes the
grading loop fail, whatever the external service does elsewhere. -/
theorem gradeAll_error_of_blank_essay (model : String)
    (env : Nat → Option SimValue × TryOutcome) (answers : List Answer) :
    ∀ (qs : List Question) (k i : Nat) (hi : i < qs.length),
      (∃ reqField maxPtsRaw, qs.get ⟨i, hi⟩ = .essay reqField maxPtsRaw) →
      blankAnswer (answers.getD (k + i) .pynone) →
      ∃ e, gradeAll model env answers k qs = .error e := by
  intro qs
  induction qs with
  | nil => intro k i hi; exact absurd hi (by simp)
  | cons q rest ih =>
    intro k i hi hq ha
    cases i with
    | zero =>
      obtain ⟨reqField, maxPtsRaw, hqe⟩ := hq
      simp only [List.get] at hqe
      subst hqe
      obtain ⟨e, he⟩ := gradeQuestion_blank_essay model (env k) reqField
        maxPtsRaw (answers.getD k .pynone) (by simpa using ha)
      refine ⟨e, ?_⟩
      simp only [gradeAll, he]
    | succ j =>
      have hj : j < rest.length := by simpa using hi
      have hq' : ∃ reqField maxPtsRaw, rest.get ⟨j, hj⟩ = .essay reqField maxPtsRaw := by
        simpa using hq
      have ha' : blankAnswer (answers.getD ((k + 1) + j) .pynone) := by
        have : (k + 1) + j = k + (j + 1) := by omega
        rw [this]
        exact ha
      obtain ⟨e, he⟩ := ih (k + 1) j hj hq' ha'
      cases hhead : gradeQuestion model (env k) q (answers.getD k .pynone) with
      | error e0 => exact ⟨e0, by simp only [gradeAll, hhead]⟩
      | ok pq =>
        refine ⟨e, ?_⟩
        simp only [gradeAll, hhead, he]

/-- C10: a quiz containing at least one essay question whose aligned
answer is missing, `None`, empty, or whitespace-only makes `grade_quiz`
raise `ValueError` instead of returning a score, because the blank text
is passed to `grade_essay`, which rejects it. -/
theorem grade_quiz_blank_essay_error (model : String)
    (env : Nat → Option SimValue × TryOutcome) (questions : List Question)
    (answers : List Answer) (i : Nat) (hi : i < questions.length)
    (hq : ∃ reqField maxPtsRaw, questions.get ⟨i, hi⟩ = .essay reqField maxPtsRaw)
    (ha : blankAnswer (answers.getD i .pynone)) :
    ∃ e, grade_quiz model env questions answers = .error e := by
  obtain ⟨e, he⟩ := gradeAll_error_of_blank_essay model env answers questions
    0 i hi hq (by simpa using ha)
  exact ⟨e, by simp only [grade_quiz, he]⟩

/-- C10 witness: a one-question quiz with an essay question and no
answers fails with the `grade_essay` validation error. -/
theorem grade_quiz_blank_essay_error_witness :
    ∃ e, grade_quiz "m" (fun _ => (none, .fail "E" "e"))
        [.essay none none] [] = .error e := by
  exact grade_quiz_blank_essay_error "m" (fun _ => (none, .fail "E" "e"))
    [.essay none none] [] 0 (by norm_num) ⟨none, none, rfl⟩ trivial

/-- C8 witness: on the sample coverage (one of three items addressed)
with `max_points = 10`, the heuristic grade lies within `[0, 10]`. -/
theorem coverage_to_grade_spec_witness :
    0 ≤ _coverage_to_grade sampleCoverage 10
      ∧ _coverage_to_grade sampleCoverage 10 ≤ 10 := by
  have h := (coverage_to_grade_spec sampleCoverage 10 (by norm_num)).2 (by decide)
  exact ⟨h.2.1, h.2.2⟩
